import Mathlib

/-!
Verification of the AtomicAds alert lifecycle engine.

The repository stores per-(user, alert) acknowledgment records
(`UserAlertPreference`) and derives a tri-valued logical state
(UNREAD / READ / SNOOZED) from the stored flags and the current time.
This file embeds the relevant TypeScript source shallowly:

* `UnreadState` / `ReadState` / `SnoozedState` /
  `AlertPreferenceStateContext` embed `src/services/alerts/states/AlertStates.ts`
  (object mutation becomes functional record update; `new Date()` and
  `Date.now()` become an explicit `now : Nat` in epoch milliseconds;
  a `Date` field that can be `null`/`undefined` becomes `Option Nat`).
* `AlertSubject` embeds the observer fan-out; an observer's `update`
  (which may throw) becomes a function into `Except String Unit`, and the
  per-observer `try`/`catch` of the source becomes the total function
  `notifyOne`, whose `Bool` result is the caught outcome the source logs.
* `NotificationStrategy` embeds single and bulk dispatch; a channel's
  `send` (which may throw or return `false`) becomes a function into
  `Except String Bool`.
* `UserAlertPreferenceModel` embeds the mongoose pre-save hook and the
  `recordReminderSent` instance method of `UserAlertPreference.ts`.
* `AlertService` embeds visibility-target validation, the persistence
  effect of `createAlert`, and the per-preference body of
  `processReminderForAlert` (the directory and the alert store become
  explicit values; `Team.find`/`User.find` with `$in` become a filter of
  the directory's distinct ids by membership in the requested id list).
-/

inductive DeliveryType where
  | IN_APP
  | EMAIL
  | SMS
deriving DecidableEq, Repr

inductive VisibilityType where
  | ORGANIZATION
  | TEAM
  | USER
deriving DecidableEq, Repr

/-- The `action` tag of the context passed to `notifyObserversWithContext`. -/
inductive ObserverAction where
  | created
  | updated
  | reminder
  | expired
deriving DecidableEq, Repr

structure ObserverContext where
  action : ObserverAction
deriving DecidableEq, Repr

/-- The fields of an alert that the embedded operations read: `title` is
only logged, `deliveryType` selects the dispatch channel, and `_context`
is the tag `notifyObserversWithContext` spreads onto the alert object
(absent, i.e. `none`, on an alert coming from the database). -/
structure Alert where
  title : String
  deliveryType : DeliveryType
  _context : Option ObserverContext
deriving DecidableEq, Repr

structure User where
  id : Nat
  name : String
deriving DecidableEq, Repr

/-- `IUserAlertPreference`: the stored acknowledgment record for one
(user, alert) pair. Timestamps are epoch milliseconds. -/
structure UserAlertPreference where
  isRead : Bool
  isSnoozed : Bool
  snoozedUntil : Option Nat
  lastReminderSent : Option Nat
  reminderCount : Nat
deriving DecidableEq, Repr

/-- Names of the derived logical states returned by `getStateName`. -/
inductive StateName where
  | READ
  | SNOOZED
  | UNREAD
deriving DecidableEq, Repr

namespace UnreadState

def markAsRead (p : UserAlertPreference) : UserAlertPreference :=
  { p with isRead := true, isSnoozed := false, snoozedUntil := none }

def snooze (p : UserAlertPreference) (now hours : Nat) : UserAlertPreference :=
  { p with isSnoozed := true, snoozedUntil := some (now + hours * 60 * 60 * 1000) }

def unsnooze (p : UserAlertPreference) : UserAlertPreference :=
  { p with isSnoozed := false, snoozedUntil := none }

/-- `preference.isSnoozed && preference.snoozedUntil && preference.snoozedUntil > now`;
a `null` date is falsy. Returns the reminder-eligibility answer together
with the (here unmodified) preference. -/
def canReceiveReminder (p : UserAlertPreference) (now : Nat) :
    Bool × UserAlertPreference :=
  let isCurrentlySnoozed :=
    p.isSnoozed && (match p.snoozedUntil with
      | some t => decide (t > now)
      | none => false)
  (!isCurrentlySnoozed, p)

end UnreadState

namespace ReadState

def markAsRead (p : UserAlertPreference) : UserAlertPreference :=
  p

def snooze (p : UserAlertPreference) (_now _hours : Nat) : UserAlertPreference :=
  p

def unsnooze (p : UserAlertPreference) : UserAlertPreference :=
  { p with isSnoozed := false, snoozedUntil := none }

def canReceiveReminder (p : UserAlertPreference) (_now : Nat) :
    Bool × UserAlertPreference :=
  (false, p)

end ReadState

namespace SnoozedState

def markAsRead (p : UserAlertPreference) : UserAlertPreference :=
  { p with isRead := true, isSnoozed := false, snoozedUntil := none }

def snooze (p : UserAlertPreference) (now hours : Nat) : UserAlertPreference :=
  { p with snoozedUntil := some (now + hours * 60 * 60 * 1000) }

def unsnooze (p : UserAlertPreference) : UserAlertPreference :=
  { p with isSnoozed := false, snoozedUntil := none }

/-- `!preference.snoozedUntil || preference.snoozedUntil <= now`: an unset
snooze date counts as expired; on expiry the source calls `this.unsnooze`
before returning `true`. -/
def canReceiveReminder (p : UserAlertPreference) (now : Nat) :
    Bool × UserAlertPreference :=
  let isSnoozeExpired :=
    match p.snoozedUntil with
    | some t => decide (t ≤ now)
    | none => true
  if isSnoozeExpired then (true, unsnooze p) else (false, p)

end SnoozedState

namespace AlertPreferenceStateContext

/-- `preference.isSnoozed && preference.snoozedUntil !== null && ... && preference.snoozedUntil > now`. -/
def isCurrentlySnoozed (p : UserAlertPreference) (now : Nat) : Bool :=
  p.isSnoozed && (match p.snoozedUntil with
    | some t => decide (t > now)
    | none => false)

/-- `getCurrentState` / `getStateName` share this exact condition chain in
the source; we represent the selected state object by its name. -/
def getStateName (p : UserAlertPreference) (now : Nat) : StateName :=
  if p.isRead then .READ
  else if p.isSnoozed && isCurrentlySnoozed p now then .SNOOZED
  else .UNREAD

def markAsRead (p : UserAlertPreference) (now : Nat) : UserAlertPreference :=
  match getStateName p now with
  | .READ => ReadState.markAsRead p
  | .SNOOZED => SnoozedState.markAsRead p
  | .UNREAD => UnreadState.markAsRead p

def snooze (p : UserAlertPreference) (now hours : Nat) : UserAlertPreference :=
  match getStateName p now with
  | .READ => ReadState.snooze p now hours
  | .SNOOZED => SnoozedState.snooze p now hours
  | .UNREAD => UnreadState.snooze p now hours

def unsnooze (p : UserAlertPreference) (now : Nat) : UserAlertPreference :=
  match getStateName p now with
  | .READ => ReadState.unsnooze p
  | .SNOOZED => SnoozedState.unsnooze p
  | .UNREAD => UnreadState.unsnooze p

def canReceiveReminder (p : UserAlertPreference) (now : Nat) :
    Bool × UserAlertPreference :=
  match getStateName p now with
  | .READ => ReadState.canReceiveReminder p now
  | .SNOOZED => SnoozedState.canReceiveReminder p now
  | .UNREAD => UnreadState.canReceiveReminder p now

/-- Builds the action list by three pushes, in source order. -/
def getAvailableActions (p : UserAlertPreference) (now : Nat) : List String :=
  (if !p.isRead then ["markAsRead"] else []) ++
  (if !p.isRead && !isCurrentlySnoozed p now then ["snooze"] else []) ++
  (if p.isSnoozed then ["unsnooze"] else [])

end AlertPreferenceStateContext

/-- An observer's `update(alert, users)`: an async call that either
resolves (`.ok`) or rejects with an error message (`.error`). -/
def AlertObserver : Type :=
  Alert → List User → Except String Unit

namespace AlertSubject

/-- The body of the per-observer closure in `notifyObservers`: the
observer is awaited inside its own `try`/`catch`, so its outcome is a
plain success/failure flag that the source writes to the log ("Observer
notified successfully" / "Observer failed") and never rethrows. -/
def notifyOne (o : AlertObserver) (alert : Alert) (users : List User) : Bool :=
  match o alert users with
  | .ok _ => true
  | .error _ => false

/-- `notifyObservers`: run every registered observer on the alert and the
recipient list. The returned list is the per-observer log of caught
outcomes, one entry per observer in registration order; nothing of it is
aggregated into a failure of the call itself (the source returns
`Promise<void>`). -/
def notifyObservers (observers : List AlertObserver) (alert : Alert)
    (users : List User) : List Bool :=
  observers.map (fun o => notifyOne o alert users)

/-- `{ ...alert.toObject(), _context: context }`. -/
def alertWithContext (alert : Alert) (context : ObserverContext) : Alert :=
  { alert with _context := some context }

def notifyObserversWithContext (observers : List AlertObserver) (alert : Alert)
    (users : List User) (context : ObserverContext) : List Bool :=
  notifyObservers observers (alertWithContext alert context) users

end AlertSubject

/-- A delivery channel's `send(alert, user)`: resolves to a success flag
or rejects with an error message. -/
def NotificationChannel : Type :=
  Alert → User → Except String Bool

/-- The channel registry: the map from delivery type to registered
channel (`Map.get` yields `undefined`, i.e. `none`, for a missing key). -/
def ChannelRegistry : Type :=
  DeliveryType → Option NotificationChannel

namespace NotificationStrategy

/-- `sendNotification`: looks up the channel for the delivery type and
returns `false` if none is registered; otherwise awaits `channel.send`
inside `try`/`catch`, returning its flag and mapping a thrown error to
`false`. Never throws to its caller. -/
def sendNotification (channels : ChannelRegistry) (alert : Alert)
    (user : User) (deliveryType : DeliveryType) : Bool :=
  match channels deliveryType with
  | none => false
  | some channel =>
    match channel alert user with
    | .ok success => success
    | .error _ => false

structure BulkResult where
  successful : Nat
  failed : Nat
  results : List (User × Bool)
deriving DecidableEq, Repr

/-- The batching loop of `sendBulkNotifications`: `users.slice(i, i + 10)`
for `i = 0, 10, 20, ...` — the list cut into runs of ten. -/
def batches (users : List User) : List (List User) :=
  match users with
  | [] => []
  | u :: rest => (u :: rest.take 9) :: batches (rest.drop 9)
termination_by users.length
decreasing_by
  simp only [List.length_cons]
  exact Nat.lt_succ_of_le (List.length_drop .. ▸ Nat.sub_le _ _)

/-- One batch of `sendBulkNotifications`: for each user of the batch,
send, push the per-user outcome onto `results`, and bump the matching
counter. -/
def processBatch (channels : ChannelRegistry) (alert : Alert)
    (deliveryType : DeliveryType) (batch : List User) (acc : BulkResult) :
    BulkResult :=
  batch.foldl (fun acc user =>
    let success := sendNotification channels alert user deliveryType
    { successful := acc.successful + (if success then 1 else 0)
      failed := acc.failed + (if success then 0 else 1)
      results := acc.results ++ [(user, success)] }) acc

/-- `sendBulkNotifications`: batches of ten, each batch fanned out and
awaited before the next (the inter-batch 100 ms pause has no effect on
the reported result and is not modelled). -/
def sendBulkNotifications (channels : ChannelRegistry) (alert : Alert)
    (users : List User) (deliveryType : DeliveryType) : BulkResult :=
  (batches users).foldl
    (fun acc batch => processBatch channels alert deliveryType batch acc)
    ⟨0, 0, []⟩

end NotificationStrategy

namespace UserAlertPreferenceModel

/-- The `pre('save')` middleware of `UserAlertPreference.ts`: first
auto-unsnooze when `isSnoozed && snoozedUntil && snoozedUntil <= now`,
then null out `snoozedUntil` whenever `isSnoozed` is false. -/
def preSaveHook (p : UserAlertPreference) (now : Nat) : UserAlertPreference :=
  let p1 :=
    if p.isSnoozed && (match p.snoozedUntil with
        | some t => decide (t ≤ now)
        | none => false) then
      { p with isSnoozed := false, snoozedUntil := none }
    else p
  if !p1.isSnoozed then { p1 with snoozedUntil := none } else p1

/-- `recordReminderSent`: stamp `lastReminderSent` with the current time
and increment `reminderCount` by one. -/
def recordReminderSent (p : UserAlertPreference) (now : Nat) :
    UserAlertPreference :=
  { p with lastReminderSent := some now, reminderCount := p.reminderCount + 1 }

end UserAlertPreferenceModel

/-- The visibility scope of a `CreateAlertRequest`. -/
structure Visibility where
  type : VisibilityType
  targetIds : List Nat
deriving DecidableEq, Repr

/-- The user/team directory behind `Team.find` / `User.find`. Documents
carry distinct `_id`s, so both id lists are taken duplicate-free (stated
as a hypothesis where it matters). -/
structure Directory where
  teamIds : List Nat
  userIds : List Nat
deriving DecidableEq, Repr

/-- What `createAlert` persists of a request, for tracking the store. -/
structure CreateAlertRequest where
  title : String
  deliveryType : DeliveryType
  visibility : Visibility
deriving DecidableEq, Repr

namespace AlertService

/-- `validateVisibilityTargets`: Organization passes with no check; for
Team (resp. User) the documents whose `_id` lies in `targetIds` are
fetched and the call throws when their number differs from
`targetIds.length`. `Team.find({ _id: { $in: targetIds } })` returns each
matching document once, i.e. the directory's ids filtered by membership
in `targetIds`. -/
def validateVisibilityTargets (dir : Directory) (visibility : Visibility) :
    Except String Unit :=
  if visibility.type = .ORGANIZATION then .ok ()
  else if visibility.type = .TEAM then
    if (dir.teamIds.filter (fun t => visibility.targetIds.contains t)).length
        ≠ visibility.targetIds.length then
      .error "One or more team IDs are invalid"
    else .ok ()
  else
    if (dir.userIds.filter (fun u => visibility.targetIds.contains u)).length
        ≠ visibility.targetIds.length then
      .error "One or more user IDs are invalid"
    else .ok ()

/-- The persistence effect of `createAlert`: validation runs first and a
thrown validation error is rethrown before `new Alert`/`alert.save()` is
ever reached, so the store is returned untouched; on success the alert is
appended to the store. (The post-save observer fan-out has no effect on
the store.) -/
def createAlert (dir : Directory) (store : List CreateAlertRequest)
    (alertData : CreateAlertRequest) :
    List CreateAlertRequest × Except String CreateAlertRequest :=
  match validateVisibilityTargets dir alertData.visibility with
  | .error e => (store, .error e)
  | .ok _ => (store ++ [alertData], .ok alertData)

/-- The per-preference body of `processReminderForAlert`: if the state
context confirms `canReceiveReminder`, dispatch via the alert's delivery
type; only on a successful send is `recordReminderSent` applied. -/
def processReminderStep (channels : ChannelRegistry) (alert : Alert)
    (user : User) (p : UserAlertPreference) (now : Nat) :
    UserAlertPreference :=
  let checked := AlertPreferenceStateContext.canReceiveReminder p now
  if checked.1 then
    let success :=
      NotificationStrategy.sendNotification channels alert user alert.deliveryType
    if success then UserAlertPreferenceModel.recordReminderSent checked.2 now
    else checked.2
  else checked.2

end AlertService

/-- Characterization of the state context's reminder query used throughout:
the answer is `true` exactly for a not-read preference outside an active
snooze window, and the preference comes back unmodified in every case
(the auto-unsnooze of `SnoozedState.canReceiveReminder` is unreachable
through the context, because an elapsed snooze already derives UNREAD). -/
theorem canReceiveReminder_spec (p : UserAlertPreference) (now : Nat) :
    AlertPreferenceStateContext.canReceiveReminder p now
      = (!p.isRead && !AlertPreferenceStateContext.isCurrentlySnoozed p now, p) := by
  obtain ⟨r, s, u, l, c⟩ := p
  cases r <;> cases s <;> cases u <;>
    simp_all [AlertPreferenceStateContext.canReceiveReminder,
      AlertPreferenceStateContext.getStateName,
      AlertPreferenceStateContext.isCurrentlySnoozed,
      ReadState.canReceiveReminder, SnoozedState.canReceiveReminder,
      UnreadState.canReceiveReminder, SnoozedState.unsnooze]
  rename_i t
  by_cases h : now < t
  · simp [h, show ¬t ≤ now by omega]
  · simp [h]

/-- Claim C1, counterexample: a preference that is snoozed with an elapsed
window (`snoozedUntil = 5 ≤ now = 10`, not read). `canReceiveReminder`
returns `true`, but contrary to the claim it does not clear `isSnoozed`
and `snoozedUntil` — the elapsed snooze derives UNREAD, so the context
dispatches to `UnreadState.canReceiveReminder`, which has no side
effect. -/
theorem C1_counterexample_elapsed_snooze_not_cleared :
    (AlertPreferenceStateContext.canReceiveReminder
        ⟨false, true, some 5, none, 0⟩ 10).1 = true ∧
    (AlertPreferenceStateContext.canReceiveReminder
        ⟨false, true, some 5, none, 0⟩ 10).2.isSnoozed = true ∧
    (AlertPreferenceStateContext.canReceiveReminder
        ⟨false, true, some 5, none, 0⟩ 10).2.snoozedUntil = some 5 := by
  decide

/-- Claim C1 (amended): `canReceiveReminder` is false whenever `isRead`
is true regardless of the snooze fields; for a snoozed preference whose
window has elapsed it returns true but leaves the preference unchanged
(no auto-transition happens through the context); for an unread
preference it returns true exactly when the preference is not within an
active snooze window. In all cases the returned preference equals the
input. -/
theorem C1_canReceiveReminder_answer_and_no_side_effect
    (p : UserAlertPreference) (now : Nat) :
    (AlertPreferenceStateContext.canReceiveReminder p now).1
        = (!p.isRead && !AlertPreferenceStateContext.isCurrentlySnoozed p now)
    ∧ (AlertPreferenceStateContext.canReceiveReminder p now).2 = p := by
  rw [canReceiveReminder_spec]
  exact ⟨rfl, rfl⟩

/-- The derived logical state exactly as the spec words it: `isRead` true
→ READ; else `isSnoozed` true and `snoozedUntil` set and strictly in the
future → SNOOZED; else → UNREAD. -/
def derivedStateSpec (p : UserAlertPreference) (now : Nat) : StateName :=
  if p.isRead then .READ
  else
    match p.snoozedUntil with
    | some t => if p.isSnoozed ∧ now < t then .SNOOZED else .UNREAD
    | none => .UNREAD

/-- Claim C2: `getStateName` (and `getCurrentState`, which tests the
identical condition chain) computes precisely the spec's derivation; in
particular a preference with `isSnoozed` true but `snoozedUntil` elapsed
derives UNREAD. -/
theorem C2_getStateName_eq_derivedStateSpec
    (p : UserAlertPreference) (now : Nat) :
    AlertPreferenceStateContext.getStateName p now = derivedStateSpec p now := by
  obtain ⟨r, s, u, l, c⟩ := p
  cases r <;> cases s <;> cases u <;>
    simp_all [AlertPreferenceStateContext.getStateName,
      AlertPreferenceStateContext.isCurrentlySnoozed, derivedStateSpec]

/-- Claim C7, counterexample: a preference with a stale `isSnoozed` flag
(window elapsed: `snoozedUntil = 5 ≤ now = 10`, not read) derives UNREAD,
yet `getAvailableActions` returns `markAsRead`, `snooze` *and* `unsnooze`
— not exactly `{markAsRead, snooze}` as the claim states, because the
`unsnooze` entry is keyed on the raw `isSnoozed` flag rather than on the
derived state. -/
theorem C7_counterexample_stale_snooze_extra_action :
    AlertPreferenceStateContext.getStateName ⟨false, true, some 5, none, 0⟩ 10
      = .UNREAD ∧
    AlertPreferenceStateContext.getAvailableActions ⟨false, true, some 5, none, 0⟩ 10
      = ["markAsRead", "snooze", "unsnooze"] := by
  decide

/-- Claim C7 (amended): `getAvailableActions` returns
`{markAsRead, snooze}` for a derived-UNREAD preference whose `isSnoozed`
flag is clear, plus `unsnooze` when the flag is stale-true;
`{markAsRead, unsnooze}` for SNOOZED with an active window; and for READ
the empty list unless `isSnoozed` is still set, in which case
`{unsnooze}`. -/
theorem C7_getAvailableActions_characterization
    (p : UserAlertPreference) (now : Nat) :
    AlertPreferenceStateContext.getAvailableActions p now =
      if p.isRead then (if p.isSnoozed then ["unsnooze"] else [])
      else if AlertPreferenceStateContext.isCurrentlySnoozed p now then
        ["markAsRead", "unsnooze"]
      else if p.isSnoozed then ["markAsRead", "snooze", "unsnooze"]
      else ["markAsRead", "snooze"] := by
  obtain ⟨r, s, u, l, c⟩ := p
  cases r <;> cases s <;> cases u <;>
    simp_all [AlertPreferenceStateContext.getAvailableActions,
      AlertPreferenceStateContext.isCurrentlySnoozed]
  rename_i t
  by_cases h : now < t
  · simp [h, show ¬t ≤ now by omega]
  · simp [h, Nat.le_of_not_lt h]

/-- Claim C8: snoozing a preference whose derived state is READ is a
complete no-op — the context dispatches to `ReadState.snooze`, which only
warns, so every field of the preference is returned unchanged. -/
theorem C8_snooze_noop_on_read (p : UserAlertPreference) (now hours : Nat)
    (h : AlertPreferenceStateContext.getStateName p now = .READ) :
    AlertPreferenceStateContext.snooze p now hours = p := by
  simp only [AlertPreferenceStateContext.snooze, h]
  rfl

theorem C8_witness :
    AlertPreferenceStateContext.getStateName ⟨true, false, none, none, 2⟩ 0 = .READ ∧
    AlertPreferenceStateContext.snooze ⟨true, false, none, none, 2⟩ 0 24
      = ⟨true, false, none, none, 2⟩ :=
  ⟨by decide, C8_snooze_noop_on_read ⟨true, false, none, none, 2⟩ 0 24 (by decide)⟩

/-- Claim C9: in each derived state the dispatched `unsnooze` handler
clears `isSnoozed` and `snoozedUntil` while leaving `isRead` (and every
other field) unchanged, and the operation is idempotent — a second call,
at any later time, returns the same field values. -/
theorem C9_unsnooze_clears_and_idempotent
    (p : UserAlertPreference) (now nowLater : Nat) :
    AlertPreferenceStateContext.unsnooze p now
        = { p with isSnoozed := false, snoozedUntil := none } ∧
    AlertPreferenceStateContext.unsnooze
        (AlertPreferenceStateContext.unsnooze p now) nowLater
      = AlertPreferenceStateContext.unsnooze p now := by
  have clears : ∀ (q : UserAlertPreference) (n : Nat),
      AlertPreferenceStateContext.unsnooze q n
        = { q with isSnoozed := false, snoozedUntil := none } := by
    intro q n
    simp only [AlertPreferenceStateContext.unsnooze]
    cases AlertPreferenceStateContext.getStateName q n <;>
      simp [ReadState.unsnooze, SnoozedState.unsnooze, UnreadState.unsnooze]
  exact ⟨clears p now, by simp [clears]⟩

/-- Claim C3: with an arbitrary observer `o` (possibly rejecting) placed
anywhere in the registered list, the fan-out still invokes every observer
of `pre` and `post` and records each one's own caught outcome, `o`'s
exception is reduced to a logged `false` entry by its per-observer
`try`/`catch` (`notifyOne` is total, so the fan-out call itself cannot
fail), the log has exactly one entry per registered observer, and
`notifyObserversWithContext` only re-runs the same fan-out on the
context-tagged alert — no subscriber result is aggregated back. -/
theorem C3_fanout_isolates_observer_failures
    (pre post : List AlertObserver) (o : AlertObserver)
    (alert : Alert) (users : List User) (context : ObserverContext) :
    AlertSubject.notifyObservers (pre ++ o :: post) alert users
      = AlertSubject.notifyObservers pre alert users
        ++ AlertSubject.notifyOne o alert users
          :: AlertSubject.notifyObservers post alert users
    ∧ (AlertSubject.notifyObservers (pre ++ o :: post) alert users).length
      = pre.length + 1 + post.length
    ∧ AlertSubject.notifyObserversWithContext (pre ++ o :: post) alert users context
      = AlertSubject.notifyObservers (pre ++ o :: post)
          (AlertSubject.alertWithContext alert context) users := by
  refine ⟨?_, ?_, rfl⟩
  · simp [AlertSubject.notifyObservers]
  · simp [AlertSubject.notifyObservers]
    omega

/-- Claim C6: one reminder-sweep step records the reminder (bumps
`reminderCount` by one and stamps `lastReminderSent := now` via
`recordReminderSent`) precisely when the state context answered
`canReceiveReminder` and the channel send succeeded; when the state
denies the reminder or the send fails, the preference is returned with
every field unchanged, so the next tick retries. -/
theorem C6_reminder_recorded_iff_send_success (channels : ChannelRegistry)
    (alert : Alert) (user : User) (p : UserAlertPreference) (now : Nat) :
    AlertService.processReminderStep channels alert user p now =
      if (AlertPreferenceStateContext.canReceiveReminder p now).1
          && NotificationStrategy.sendNotification channels alert user alert.deliveryType then
        UserAlertPreferenceModel.recordReminderSent p now
      else p := by
  simp only [AlertService.processReminderStep, canReceiveReminder_spec]
  cases hb : (!p.isRead && !AlertPreferenceStateContext.isCurrentlySnoozed p now) <;>
    cases hs : NotificationStrategy.sendNotification channels alert user alert.deliveryType <;>
      simp [hb, hs]



/-- Batches of ten, concatenated back together, are exactly the original
recipient list. -/
theorem batches_flatten (users : List User) :
    (NotificationStrategy.batches users).flatten = users := by
  cases h : users with
  | nil => simp [NotificationStrategy.batches]
  | cons u rest =>
    rw [NotificationStrategy.batches]
    have ih := batches_flatten (rest.drop 9)
    simp [ih]
termination_by users.length
decreasing_by
  simp [h]
  omega

/-- One batch accumulates one outcome entry per user of the batch, in
order, and bumps exactly one of the two counters per user. -/
theorem processBatch_spec (channels : ChannelRegistry) (alert : Alert)
    (deliveryType : DeliveryType) (batch : List User)
    (acc : NotificationStrategy.BulkResult) :
    NotificationStrategy.processBatch channels alert deliveryType batch acc =
      { successful := acc.successful
          + batch.countP (fun u => NotificationStrategy.sendNotification channels alert u deliveryType)
        failed := acc.failed
          + batch.countP (fun u => !NotificationStrategy.sendNotification channels alert u deliveryType)
        results := acc.results
          ++ batch.map (fun u => (u, NotificationStrategy.sendNotification channels alert u deliveryType)) } := by
  induction batch generalizing acc with
  | nil => simp [NotificationStrategy.processBatch]
  | cons u us ih =>
    simp only [NotificationStrategy.processBatch, List.foldl_cons] at ih ⊢
    rw [ih]
    cases hok : NotificationStrategy.sendNotification channels alert u deliveryType <;>
      simp [List.countP_cons, hok] <;> omega

/-- Folding the batch step over any batch list accumulates the counts and
outcomes of the concatenation of the batches. -/
theorem bulkFold_spec (channels : ChannelRegistry) (alert : Alert)
    (deliveryType : DeliveryType) (batchList : List (List User))
    (acc : NotificationStrategy.BulkResult) :
    batchList.foldl
        (fun acc batch => NotificationStrategy.processBatch channels alert deliveryType batch acc)
        acc =
      { successful := acc.successful
          + batchList.flatten.countP (fun u => NotificationStrategy.sendNotification channels alert u deliveryType)
        failed := acc.failed
          + batchList.flatten.countP (fun u => !NotificationStrategy.sendNotification channels alert u deliveryType)
        results := acc.results
          ++ batchList.flatten.map (fun u => (u, NotificationStrategy.sendNotification channels alert u deliveryType)) } := by
  induction batchList generalizing acc with
  | nil => simp
  | cons b bs ih =>
    simp only [List.foldl_cons, List.flatten_cons]
    rw [processBatch_spec, ih]
    simp [List.countP_append]
    omega

/-- Claim C4: bulk dispatch to N recipients reports
`successful = N - K` and `failed = K`, where K is the number of
recipients whose send fails (missing channel, `false` result, or thrown
error — all absorbed into `sendNotification = false`), together with a
per-recipient outcome list holding exactly one entry per recipient. The
outcome list equals the pointwise map of each recipient's own send, so no
recipient's failure influences any other recipient's entry, and every
function involved is total — nothing propagates to the caller. -/
theorem C4_bulk_counts_and_per_recipient_outcomes (channels : ChannelRegistry) (alert : Alert)
    (users : List User) (deliveryType : DeliveryType) :
    (NotificationStrategy.sendBulkNotifications channels alert users deliveryType).successful
      = users.length
        - users.countP (fun u => !NotificationStrategy.sendNotification channels alert u deliveryType)
    ∧ (NotificationStrategy.sendBulkNotifications channels alert users deliveryType).failed
      = users.countP (fun u => !NotificationStrategy.sendNotification channels alert u deliveryType)
    ∧ (NotificationStrategy.sendBulkNotifications channels alert users deliveryType).results
      = users.map (fun u => (u, NotificationStrategy.sendNotification channels alert u deliveryType))
    ∧ (NotificationStrategy.sendBulkNotifications channels alert users deliveryType).results.length
      = users.length := by
  have h : NotificationStrategy.sendBulkNotifications channels alert users deliveryType =
      { successful := users.countP (fun u => NotificationStrategy.sendNotification channels alert u deliveryType)
        failed := users.countP (fun u => !NotificationStrategy.sendNotification channels alert u deliveryType)
        results := users.map (fun u => (u, NotificationStrategy.sendNotification channels alert u deliveryType)) } := by
    rw [NotificationStrategy.sendBulkNotifications, bulkFold_spec]
    simp [batches_flatten]
  rw [h]
  have hcount := users.length_eq_countP_add_countP
    (fun u => NotificationStrategy.sendNotification channels alert u deliveryType)
  have hconv : (fun u => decide ¬(NotificationStrategy.sendNotification channels alert u deliveryType = true))
      = (fun u => !NotificationStrategy.sendNotification channels alert u deliveryType) := by
    funext u
    cases NotificationStrategy.sendNotification channels alert u deliveryType <;> simp
  rw [hconv] at hcount
  refine ⟨?_, rfl, rfl, by simp⟩
  simp only []
  omega

/-- Counting lemma behind target validation: with a duplicate-free
directory id list `D`, the documents of `D` matched by an id list `T`
number exactly `T.length` iff `T` has no duplicates and every id of `T`
resolves in `D`. -/
theorem filter_contains_length_eq_iff (D T : List Nat) (hD : D.Nodup) :
    (D.filter (fun x => T.contains x)).length = T.length ↔
      (T.Nodup ∧ ∀ t ∈ T, t ∈ D) := by
  have hfin : (D.filter (fun x => T.contains x)).toFinset
      = D.toFinset ∩ T.toFinset := by
    ext x
    simp [List.mem_filter, List.elem_iff]
  have hnod : (D.filter (fun x => T.contains x)).Nodup := hD.filter _
  have hlen : (D.filter (fun x => T.contains x)).length
      = (D.toFinset ∩ T.toFinset).card := by
    rw [← hfin]
    exact (List.toFinset_card_of_nodup hnod).symm
  constructor
  · intro h
    rw [hlen] at h
    have hsub : D.toFinset ∩ T.toFinset ⊆ T.toFinset := Finset.inter_subset_right
    have h1 : (D.toFinset ∩ T.toFinset).card ≤ T.toFinset.card :=
      Finset.card_le_card hsub
    have h2 : T.toFinset.card ≤ T.length := T.toFinset_card_le
    have hTcard : T.toFinset.card = T.length := le_antisymm h2 (h ▸ h1)
    have hTnodup : T.Nodup := by
      have hd1 : T.dedup.length = T.length := by
        rw [← List.card_toFinset]
        exact hTcard
      exact List.dedup_eq_self.mp (List.Sublist.eq_of_length T.dedup_sublist hd1)
    have hEq : D.toFinset ∩ T.toFinset = T.toFinset :=
      Finset.eq_of_subset_of_card_le hsub (by rw [h, hTcard])
    refine ⟨hTnodup, fun t ht => ?_⟩
    have hmem : t ∈ D.toFinset ∩ T.toFinset := by
      rw [hEq]
      exact List.mem_toFinset.mpr ht
    exact List.mem_toFinset.mp (Finset.mem_of_mem_inter_left hmem)
  · rintro ⟨hTnodup, hsub⟩
    rw [hlen]
    have hEq : D.toFinset ∩ T.toFinset = T.toFinset := by
      apply Finset.inter_eq_right.mpr
      intro x hx
      exact List.mem_toFinset.mpr (hsub x (List.mem_toFinset.mp hx))
    rw [hEq]
    exact List.toFinset_card_of_nodup hTnodup

/-- Claim C5 (amended): with duplicate-free directory ids,
`validateVisibilityTargets` accepts iff the scope is Organization (no
target check at all), or the scope is Team/User and the target list is
duplicate-free with every target resolving in the matching directory —
i.e. validation also fails when all targets resolve but the list repeats
an id, since `find` returns each matching document once and the source
compares that count against `targetIds.length`. Moreover, whenever
validation rejects a request's visibility, `createAlert` leaves the alert
store untouched (validation throws before `alert.save()`). -/
theorem C5_validate (dir : Directory) (vis : Visibility)
    (hteams : dir.teamIds.Nodup) (husers : dir.userIds.Nodup) :
    (AlertService.validateVisibilityTargets dir vis = .ok () ↔
      (vis.type = .ORGANIZATION ∨
        (vis.type = .TEAM ∧ vis.targetIds.Nodup ∧ ∀ i ∈ vis.targetIds, i ∈ dir.teamIds) ∨
        (vis.type = .USER ∧ vis.targetIds.Nodup ∧ ∀ i ∈ vis.targetIds, i ∈ dir.userIds))) ∧
    (∀ (store : List CreateAlertRequest) (alertData : CreateAlertRequest),
      AlertService.validateVisibilityTargets dir alertData.visibility ≠ .ok () →
      (AlertService.createAlert dir store alertData).1 = store) := by
  constructor
  · cases htype : vis.type with
    | ORGANIZATION => simp [AlertService.validateVisibilityTargets, htype]
    | TEAM =>
      have hiff := filter_contains_length_eq_iff dir.teamIds vis.targetIds hteams
      constructor
      · intro hok
        refine Or.inr (Or.inl ⟨rfl, ?_⟩)
        apply hiff.mp
        by_contra hlen
        rw [AlertService.validateVisibilityTargets, htype, if_neg (by simp),
          if_pos rfl, if_pos hlen] at hok
        exact Except.noConfusion hok
      · intro hrhs
        rcases hrhs with h | ⟨_, hnod, hsub⟩ | ⟨habs, _⟩
        · exact absurd h (by simp)
        · rw [AlertService.validateVisibilityTargets, htype, if_neg (by simp),
            if_pos rfl, if_neg (not_not_intro (hiff.mpr ⟨hnod, hsub⟩))]
        · exact absurd habs (by simp)
    | USER =>
      have hiff := filter_contains_length_eq_iff dir.userIds vis.targetIds husers
      constructor
      · intro hok
        refine Or.inr (Or.inr ⟨rfl, ?_⟩)
        apply hiff.mp
        by_contra hlen
        rw [AlertService.validateVisibilityTargets, htype, if_neg (by simp),
          if_neg (by simp), if_pos hlen] at hok
        exact Except.noConfusion hok
      · intro hrhs
        rcases hrhs with h | ⟨habs, _⟩ | ⟨_, hnod, hsub⟩
        · exact absurd h (by simp)
        · exact absurd habs (by simp)
        · rw [AlertService.validateVisibilityTargets, htype, if_neg (by simp),
            if_neg (by simp), if_neg (not_not_intro (hiff.mpr ⟨hnod, hsub⟩))]
  · intro store alertData h
    rw [AlertService.createAlert]
    cases hv : AlertService.validateVisibilityTargets dir alertData.visibility with
    | error e => simp
    | ok u => exact absurd hv h

/-- Claim C5, counterexample: a Team scope whose target list `[1, 1]`
repeats a team id that does resolve in the directory (`teamIds = [1]`) is
rejected, refuting the claim's "fails if and only if ... references a
target identity that does not resolve": every referenced identity
resolves, yet validation fails on the count mismatch (one matching
document versus two target entries). -/
theorem C5_counterexample :
    (∀ i ∈ ([1, 1] : List Nat), i ∈ ([1] : List Nat)) ∧
    AlertService.validateVisibilityTargets ⟨[1], []⟩ ⟨.TEAM, [1, 1]⟩
      = .error "One or more team IDs are invalid" :=
  ⟨by decide, rfl⟩

theorem C5_witness :
    (AlertService.validateVisibilityTargets ⟨[1], [2]⟩ ⟨.TEAM, [1]⟩ = .ok ()) ∧
    (AlertService.createAlert ⟨[1], [2]⟩ [] ⟨"t", .EMAIL, ⟨.TEAM, [3]⟩⟩).1 = [] := by
  constructor
  · exact (C5_validate ⟨[1], [2]⟩ ⟨.TEAM, [1]⟩ (by decide) (by decide)).1.mpr
      (Or.inr (Or.inl ⟨rfl, by decide, by decide⟩))
  · refine (C5_validate ⟨[1], [2]⟩ ⟨.TEAM, [3]⟩ (by decide) (by decide)).2 []
      ⟨"t", .EMAIL, ⟨.TEAM, [3]⟩⟩ ?_
    intro h
    simp [AlertService.validateVisibilityTargets] at h

/-- Claim C10: after the pre-save hook runs, `isSnoozed = false` implies
`snoozedUntil = none`; any surviving `snoozedUntil = some t` comes with
`isSnoozed = true` and `now < t`; and a snoozed preference whose window
has elapsed at save time has both fields cleared. Hence a persisted
preference carries a non-null `snoozedUntil` only when it is snoozed with
the window still in the future at the moment of saving. -/
theorem C10_preSaveHook_normalizes (p : UserAlertPreference) (now : Nat) :
    ((UserAlertPreferenceModel.preSaveHook p now).isSnoozed = false →
      (UserAlertPreferenceModel.preSaveHook p now).snoozedUntil = none) ∧
    (∀ t, (UserAlertPreferenceModel.preSaveHook p now).snoozedUntil = some t →
      (UserAlertPreferenceModel.preSaveHook p now).isSnoozed = true ∧ now < t) ∧
    (p.isSnoozed = true → ∀ t, p.snoozedUntil = some t → t ≤ now →
      (UserAlertPreferenceModel.preSaveHook p now).isSnoozed = false ∧
      (UserAlertPreferenceModel.preSaveHook p now).snoozedUntil = none) := by
  obtain ⟨r, s, u, l, c⟩ := p
  cases s <;> cases u <;>
    simp_all [UserAlertPreferenceModel.preSaveHook]
  rename_i t
  by_cases h : t ≤ now
  · simp [h]
  · simp [h]
    omega

theorem C10_witness :
    (UserAlertPreferenceModel.preSaveHook ⟨false, true, some 5, none, 0⟩ 10).isSnoozed
      = false ∧
    (UserAlertPreferenceModel.preSaveHook ⟨false, true, some 5, none, 0⟩ 10).snoozedUntil
      = none :=
  (C10_preSaveHook_normalizes ⟨false, true, some 5, none, 0⟩ 10).2.2 rfl 5 rfl
    (by decide)
